import Mathlib

/-!
Shallow embedding of `src/include/Poly/Poly.hpp` (namespace `efl`):
a stack-allocated, tag-discriminated polymorphic value container
`Poly<Base, Derived...>`.

Modelling choices:
* C++ types in the template list `(Base, Derived...)` are modelled as
  indices `Fin (n+1)` where index `0` is `Base` and index `i` (`1 ≤ i ≤ n`)
  is the i-th `Derived` type.  A live object is a `Value`: its dynamic
  type index plus a `Nat` payload standing for its bytes.
* The container state is `(data_, id_)` exactly as in the source:
  `data_ : Option (Value n)` is the live object currently constructed in
  the raw storage (`none` = no live object), `id_ : Nat` is the tag.
* Each lifecycle operation is translated statement by statement from the
  source and additionally returns the list of observable lifetime events
  it performs, in order: placement-new (`ctor`), destructor call (`dtor`)
  and tag writes (`setTag`).  This makes the ordering claims
  (destroy-before-construct, tag-write vs construct order) provable.
* `is_abstract_v` is modelled by a predicate `abs : Fin (n+1) → Bool`;
  the `if constexpr (!std::is_abstract_v<T>)` guards and the
  `static_assert(!std::is_abstract_v<U>)` checks use it.
* The compile-time registry (`PolyNode` / `IPoly`: `GetID`, `GetTy`) is
  modelled generically over any list of type names, so that the actual
  tag numbering of `(Base, D1..Dn)` can be stated and checked.
-/

namespace efl

/-- A C++ object living in the container's raw storage: its dynamic type
(an index into the list `(Base, D1, ..., Dn)`) and its value bytes. -/
structure Value (n : Nat) where
  ty : Fin (n + 1)
  val : Nat
deriving DecidableEq, Repr

/-- The state of `efl::Poly<Base, Derived...>`: the live object currently
constructed inside `data_.raw_` (if any), and the tag `id_`. -/
structure Poly (n : Nat) where
  data_ : Option (Value n)
  id_ : Nat
deriving DecidableEq, Repr

/-- Observable lifetime events of one operation, in program order:
`ctor v` is a placement-new constructing `v`, `dtor v` is an explicit
destructor call on the live object `v`, `setTag i` is a write to `id_`. -/
inductive Event (n : Nat) where
  | ctor : Value n → Event n
  | dtor : Value n → Event n
  | setTag : Nat → Event n
deriving DecidableEq, Repr

/-! ### The compile-time registry (`efl::H::PolyNode`, `efl::H::IPoly`)

`IPolyBase<TT...>` derives `PolyNode<TT, II>...` over
`II = 0, ..., sizeof...(TT)-1`; `PolyNode<T, I>::IGetID(TyNode<T>)`
returns `IdNode<I+1>` and `IGetTy(IdNode<I+1>)` returns `TyNode<T>`.
`GetID<U>` resolves to the node whose type is `U`; `GetTy<I>` resolves to
the node whose index is `I`.  We model the list of types generically. -/

/-- `GetID<U>` on the node list `TT`: the 1-based position of `U` in the
list (overload resolution finds the `PolyNode` whose `Type` is `U`, which
yields `IdNode<I+1>`); `none` when `U` is not in the list (no overload:
rejected at compile time). -/
def GetID {α : Type} [DecidableEq α] (TT : List α) (u : α) : Option Nat :=
  match TT with
  | [] => none
  | t :: rest => if u = t then some 1 else (GetID rest u).map (· + 1)

/-- `GetTy<I>` on the node list `TT`: the type stored at index `I`
(the node `PolyNode<T, I>` answers `IGetTy(IdNode<I+1>)` with `T`). -/
def GetTy {α : Type} (TT : List α) (I : Nat) : Option α :=
  TT.get? I

/-- `efl::H::matches_any<T, UU...>`: `T` is one of the `UU`. -/
def matches_any {α : Type} [DecidableEq α] (u : α) (TT : List α) : Bool :=
  TT.contains u

/-! ### The container's tag constant `Poly::ID<T>`

In the concrete container model the node list is `(Base, D1, ..., Dn)`,
identified with `List.finRange (n+1)`, so `ID<T>` for the type at index
`t` is `t + 1`. -/

/-- `Poly::ID<T>` for the type at index `t` of `(Base, D1, ..., Dn)`:
`BaseType::GetID<T>().value`, i.e. the 1-based position `t + 1`. -/
def tagOf {n : Nat} (t : Fin (n + 1)) : Nat :=
  t.val + 1

/-! ### Observers -/

/-- `Poly::isEmpty()`: `id_ == 0U`. -/
def Poly.isEmpty {n : Nat} (p : Poly n) : Bool :=
  p.id_ == 0

/-- `Poly::holdsAny()`: `id_ != 0U`. -/
def Poly.holdsAny {n : Nat} (p : Poly n) : Bool :=
  p.id_ != 0

/-- `Poly::holdsType<T>()`: `id_ == ID<T>`. -/
def Poly.holdsType {n : Nat} (p : Poly n) (t : Fin (n + 1)) : Bool :=
  p.id_ == tagOf t

/-- `Poly::getPtr()`: `nullptr` (`none`) when `id_ == 0`, otherwise the
non-null `Base*` pointer `&data_.base_` into the storage (`some c` where
`c` is the live content of the storage that the pointer views). -/
def Poly.getPtr {n : Nat} (p : Poly n) : Option (Option (Value n)) :=
  if p.id_ = 0 then none else some p.data_

/-- The `POLY_ASSERT(holdsAny())` check guarding `Poly::operator->`. -/
def Poly.arrowAssert {n : Nat} (p : Poly n) : Bool :=
  p.holdsAny

/-! ### The dispatch engine (`Poly::visit_`)

`visit_<T, Next...>` compares `ID<T>` with `id_` and recurses on a
mismatch; on the first match it invokes the callback with
`launder_cast<T>(getPtr())` and stops. -/

/-- The linear scan of `visit_<T, Next...>` over the remaining node list:
the first type whose tag `ID<T>` equals `i`, or `none` when the list is
exhausted (the empty-pack overload returns without calling `F`). -/
def scanTy {n : Nat} (i : Nat) : List (Fin (n + 1)) → Option (Fin (n + 1))
  | [] => none
  | t :: rest => if tagOf t ≠ i then scanTy i rest else some t

/-- The full node list `(Base, D1, ..., Dn)` that `visit` dispatches
over (`visit_<Base, Derived...>`). -/
def tyList (n : Nat) : List (Fin (n + 1)) :=
  List.finRange (n + 1)

/-- The single callback invocation `Poly::visit` performs, if any:
`none` when `isEmpty()` (early return) or when no tag matches; otherwise
`some (T, c)` where `T` is the first matching type of the scan and `c`
the live content of the storage the laundered pointer points at. -/
def Poly.visitTarget {n : Nat} (p : Poly n) :
    Option (Fin (n + 1) × Option (Value n)) :=
  if p.isEmpty then none
  else match scanTy p.id_ (tyList n) with
    | some t => some (t, p.data_)
    | none => none

/-- `Poly::visit(F)` observed as the list of invocations of `F`, each
recorded as (static type of the pointer parameter, live content of the
storage it points at).  The scan stops at the first match, so the list
has at most one element. -/
def Poly.visit {n : Nat} (p : Poly n) :
    List (Fin (n + 1) × Option (Value n)) :=
  match p.visitTarget with
  | some inv => [inv]
  | none => []

/-! ### Lifecycle operations, each with its event trace -/

/-- `Poly::destroySelf()`: `visit([](T* P){ P->~T(); }); id_ = 0U;` —
the dispatched destructor call (when the scan matches and the storage is
live), then the tag write. -/
def Poly.destroySelf {n : Nat} (p : Poly n) : Poly n × List (Event n) :=
  match p.visitTarget with
  | some (_, some v) => (⟨none, 0⟩, [Event.dtor v, Event.setTag 0])
  | some (_, none) => (⟨none, 0⟩, [Event.setTag 0])
  | none => (⟨p.data_, 0⟩, [Event.setTag 0])

/-- `Poly::erase()`: `destroySelf()`. -/
def Poly.erase {n : Nat} (p : Poly n) : Poly n × List (Event n) :=
  p.destroySelf

/-- Copy constructor `Poly(const Poly& p)`: member-init `id_(p.id_)`
(a tag write), then `p.visit` copy-constructing the exact held type into
own storage — the lambda body is guarded by
`if constexpr (!std::is_abstract_v<T>)`, so nothing is constructed for an
abstract `T`.  Returns the new container and the trace. -/
def Poly.copyCtor {n : Nat} (abs : Fin (n + 1) → Bool) (p : Poly n) :
    Poly n × List (Event n) :=
  match p.visitTarget with
  | some (t, some v) =>
      if abs t then (⟨none, p.id_⟩, [Event.setTag p.id_])
      else (⟨some ⟨t, v.val⟩, p.id_⟩,
            [Event.setTag p.id_, Event.ctor ⟨t, v.val⟩])
  | some (_, none) => (⟨none, p.id_⟩, [Event.setTag p.id_])
  | none => (⟨none, p.id_⟩, [Event.setTag p.id_])

/-- Move constructor `Poly(Poly&& p)`: member-init `id_(p.id_)`, then
`p.visit` move-constructing the exact held type (guarded by
`if constexpr (!std::is_abstract_v<T>)`), then `p.destroySelf()`.
Returns (new container, source afterwards) and the trace. -/
def Poly.moveCtor {n : Nat} (abs : Fin (n + 1) → Bool) (p : Poly n) :
    (Poly n × Poly n) × List (Event n) :=
  let built : Poly n × List (Event n) :=
    match p.visitTarget with
    | some (t, some v) =>
        if abs t then (⟨none, p.id_⟩, [Event.setTag p.id_])
        else (⟨some ⟨t, v.val⟩, p.id_⟩,
              [Event.setTag p.id_, Event.ctor ⟨t, v.val⟩])
    | some (_, none) => (⟨none, p.id_⟩, [Event.setTag p.id_])
    | none => (⟨none, p.id_⟩, [Event.setTag p.id_])
  let ds := p.destroySelf
  ((built.1, ds.1), built.2 ++ ds.2)

/-- The `static_assert(!std::is_abstract_v<U>)` in the value constructors:
whether a value of type index `t` is accepted at compile time. -/
def ctorAccepted {n : Nat} (abs : Fin (n + 1) → Bool)
    (t : Fin (n + 1)) : Bool :=
  !(abs t)

/-- Value constructors `Poly(const U& u)` / `Poly(U&& u)`: member-init
`id_(ID<U>)`, then placement-new of `U{u}` into the raw storage. -/
def Poly.valueCtor {n : Nat} (u : Value n) : Poly n × List (Event n) :=
  (⟨some u, tagOf u.ty⟩, [Event.setTag (tagOf u.ty), Event.ctor u])

/-- Value assignment `operator=(const U& u)` / `operator=(U&& u)`:
`destroySelf(); id_ = ID<U>; new (data_.raw_) U{u};`. -/
def Poly.valueAssign {n : Nat} (p : Poly n) (u : Value n) :
    Poly n × List (Event n) :=
  let ds := p.destroySelf
  (⟨some u, tagOf u.ty⟩,
   ds.2 ++ [Event.setTag (tagOf u.ty), Event.ctor u])

/-- Copy assignment `operator=(const Poly& p)` with `p` a distinct
object: `destroySelf(); id_ = p.id_; p.visit(copy-construct lambda);`
(this lambda has no abstract guard in the source). -/
def Poly.copyAssign {n : Nat} (dst src : Poly n) : Poly n × List (Event n) :=
  let ds := dst.destroySelf
  match src.visitTarget with
  | some (t, some v) =>
      (⟨some ⟨t, v.val⟩, src.id_⟩,
       ds.2 ++ [Event.setTag src.id_, Event.ctor ⟨t, v.val⟩])
  | _ => (⟨ds.1.data_, src.id_⟩, ds.2 ++ [Event.setTag src.id_])

/-- Copy assignment `x = x` where source and destination alias: every
read of the source sees the partially updated `*this`.  Statement by
statement: `destroySelf()` empties `*this`; `id_ = p.id_` copies the now
zeroed tag; `p.visit(...)` dispatches on the now empty `*this`. -/
def Poly.selfCopyAssign {n : Nat} (x : Poly n) : Poly n × List (Event n) :=
  let ds := x.destroySelf
  let x2 : Poly n := ⟨ds.1.data_, ds.1.id_⟩
  match x2.visitTarget with
  | some (t, some v) =>
      (⟨some ⟨t, v.val⟩, x2.id_⟩,
       ds.2 ++ [Event.setTag x2.id_, Event.ctor ⟨t, v.val⟩])
  | _ => (⟨x2.data_, x2.id_⟩, ds.2 ++ [Event.setTag x2.id_])

/-- Move assignment `operator=(Poly&& p)` with `p` a distinct object:
`destroySelf(); id_ = p.id_; p.visit(move-construct lambda);
p.destroySelf();`.  Returns (destination afterwards, source afterwards)
and the trace. -/
def Poly.moveAssign {n : Nat} (dst src : Poly n) :
    (Poly n × Poly n) × List (Event n) :=
  let ds := dst.destroySelf
  let built : Poly n × List (Event n) :=
    match src.visitTarget with
    | some (t, some v) =>
        (⟨some ⟨t, v.val⟩, src.id_⟩,
         [Event.setTag src.id_, Event.ctor ⟨t, v.val⟩])
    | _ => (⟨ds.1.data_, src.id_⟩, [Event.setTag src.id_])
  let ss := src.destroySelf
  ((built.1, ss.1), ds.2 ++ built.2 ++ ss.2)

/-- Move assignment `x = std::move(x)` where source and destination
alias: `destroySelf()` empties `*this`; `id_ = p.id_` copies the zeroed
tag; `p.visit(...)` on the empty `*this` is a no-op; the final
`p.destroySelf()` acts on the already empty `*this`. -/
def Poly.selfMoveAssign {n : Nat} (x : Poly n) : Poly n × List (Event n) :=
  let ds := x.destroySelf
  let x2 : Poly n := ⟨ds.1.data_, ds.1.id_⟩
  let built : Poly n × List (Event n) :=
    match x2.visitTarget with
    | some (t, some v) =>
        (⟨some ⟨t, v.val⟩, x2.id_⟩,
         [Event.setTag x2.id_, Event.ctor ⟨t, v.val⟩])
    | _ => (⟨x2.data_, x2.id_⟩, [Event.setTag x2.id_])
  let ss := built.1.destroySelf
  (ss.1, ds.2 ++ built.2 ++ ss.2)

/-- `std::swap(a, b)` for distinct `a`, `b`, expressed with the
container's own move operations: `tmp = move(a); a = move(b);
b = move(tmp);`. -/
def swapPoly {n : Nat} (abs : Fin (n + 1) → Bool) (a b : Poly n) :
    (Poly n × Poly n) × List (Event n) :=
  let s1 := a.moveCtor abs
  let s2 := Poly.moveAssign s1.1.2 b
  let s3 := Poly.moveAssign s2.1.2 s1.1.1
  ((s2.1.1, s3.1.1), s1.2 ++ s2.2 ++ s3.2)

/-- `std::swap(x, x)`: `tmp = move(x)` empties `x`; `x = move(x)` is the
aliased self-move-assign on the emptied `x`; `x = move(tmp)` moves the
value back. -/
def selfSwapPoly {n : Nat} (abs : Fin (n + 1) → Bool) (x : Poly n) :
    Poly n × List (Event n) :=
  let s1 := x.moveCtor abs
  let s2 := Poly.selfMoveAssign s1.1.2
  let s3 := Poly.moveAssign s2.1 s1.1.1
  (s3.1.1, s1.2 ++ s2.2 ++ s3.2)

/-! ### The container invariant -/

/-- The state invariant of `Poly`: the storage holds a live object iff
the tag is nonzero, the tag is then exactly the held type's `ID`, and the
held type is instantiable (never an abstract type). -/
def Poly.Wf {n : Nat} (abs : Fin (n + 1) → Bool) (p : Poly n) : Bool :=
  match p.data_ with
  | none => p.id_ == 0
  | some v => p.id_ == tagOf v.ty && !(abs v.ty)

end efl

/-! ### Further definitions used by the statements -/

namespace efl

/-- The installation order C4 asserts for traces: every write of a
nonzero tag must be preceded by an earlier placement-new.  `seen`
records whether a `ctor` event has already occurred. -/
def ctorPrecedesTagWrite {n : Nat} (seen : Bool) :
    List (Event n) → Bool
  | [] => true
  | Event.ctor _ :: rest => ctorPrecedesTagWrite true rest
  | Event.dtor _ :: rest => ctorPrecedesTagWrite seen rest
  | Event.setTag 0 :: rest => ctorPrecedesTagWrite seen rest
  | Event.setTag (_ + 1) :: rest => seen && ctorPrecedesTagWrite seen rest

/-- A `Poly<Base, D1>` instantiation where `Base` is concrete:
no type in the list is abstract. -/
def noAbstract : Fin 2 → Bool := fun _ => false

/-- A `Poly<Base, D1>` instantiation whose `Base` is abstract. -/
def abstractBase : Fin 2 → Bool := fun t => t.val == 0

/-- A `Poly<Base, D1>` holding a `Base` object with bytes `7` (tag 1). -/
def polyB : Poly 1 := ⟨some ⟨0, 7⟩, 1⟩

/-- A `Poly<Base, D1>` holding a `D1` object with bytes `9` (tag 2). -/
def polyD : Poly 1 := ⟨some ⟨1, 9⟩, 2⟩

/-- An empty `Poly<Base, D1>`. -/
def polyE : Poly 1 := ⟨none, 0⟩

end efl

/-! ### Basic facts about tags and the dispatch scan -/

namespace efl

theorem tagOf_ne_zero {n : Nat} (t : Fin (n + 1)) : tagOf t ≠ 0 :=
  Nat.succ_ne_zero t.val

theorem tagOf_inj {n : Nat} {s t : Fin (n + 1)} (h : tagOf s = tagOf t) :
    s = t :=
  Fin.ext (Nat.succ_injective h)

theorem scanTy_of_mem {n : Nat} (t : Fin (n + 1))
    (l : List (Fin (n + 1))) (hm : t ∈ l) :
    scanTy (tagOf t) l = some t := by
  induction l with
  | nil => cases hm
  | cons s l ih =>
    unfold scanTy
    by_cases hs : tagOf s = tagOf t
    · have hst : s = t := tagOf_inj hs
      subst hst
      simp
    · have ht : t ∈ l := by
        rcases List.mem_cons.mp hm with h | h
        · exact absurd (by rw [h]) hs
        · exact h
      simp [hs, ih ht]

theorem scanTy_tyList {n : Nat} (t : Fin (n + 1)) :
    scanTy (tagOf t) (tyList n) = some t :=
  scanTy_of_mem t (tyList n) (List.mem_finRange t)

/-! ### Unfolding the invariant -/

theorem Wf_spec_holding {n : Nat} {abs : Fin (n + 1) → Bool} {p : Poly n}
    {v : Value n} (hw : p.Wf abs = true) (hv : p.data_ = some v) :
    p.id_ = tagOf v.ty ∧ abs v.ty = false := by
  unfold Poly.Wf at hw
  rw [hv] at hw
  simpa using hw

theorem Wf_spec_none {n : Nat} {abs : Fin (n + 1) → Bool} {p : Poly n}
    (hw : p.Wf abs = true) (hv : p.data_ = none) :
    p.id_ = 0 := by
  unfold Poly.Wf at hw
  rw [hv] at hw
  simpa using hw

theorem Wf_empty_state {n : Nat} (abs : Fin (n + 1) → Bool) :
    (⟨none, 0⟩ : Poly n).Wf abs = true := rfl

theorem Wf_holding_state {n : Nat} {abs : Fin (n + 1) → Bool} {v : Value n}
    (habs : abs v.ty = false) :
    (⟨some v, tagOf v.ty⟩ : Poly n).Wf abs = true := by
  simp [Poly.Wf, habs]

/-! ### The dispatch target on well-formed states -/

theorem visitTarget_holding {n : Nat} {abs : Fin (n + 1) → Bool}
    {p : Poly n} {v : Value n} (hw : p.Wf abs = true)
    (hv : p.data_ = some v) :
    p.visitTarget = some (v.ty, some v) := by
  obtain ⟨hid, _⟩ := Wf_spec_holding hw hv
  unfold Poly.visitTarget Poly.isEmpty
  rw [hid, hv]
  simp [tagOf_ne_zero, scanTy_tyList]

theorem visitTarget_zero {n : Nat} {p : Poly n} (h : p.id_ = 0) :
    p.visitTarget = none := by
  unfold Poly.visitTarget Poly.isEmpty
  simp [h]

theorem visitTarget_empty_state {n : Nat} :
    (⟨none, 0⟩ : Poly n).visitTarget = none := rfl

end efl

/-! ### Shapes of the lifecycle operations on well-formed states -/

namespace efl

theorem destroySelf_holding {n : Nat} {abs : Fin (n + 1) → Bool}
    {p : Poly n} {v : Value n} (hw : p.Wf abs = true)
    (hv : p.data_ = some v) :
    p.destroySelf = (⟨none, 0⟩, [Event.dtor v, Event.setTag 0]) := by
  simp [Poly.destroySelf, visitTarget_holding hw hv]

theorem destroySelf_zero {n : Nat} {p : Poly n} (h : p.id_ = 0) :
    p.destroySelf = (⟨p.data_, 0⟩, [Event.setTag 0]) := by
  simp [Poly.destroySelf, visitTarget_zero h]

theorem destroySelf_wf_fst {n : Nat} {abs : Fin (n + 1) → Bool}
    {p : Poly n} (hw : p.Wf abs = true) :
    (p.destroySelf).1 = ⟨none, 0⟩ := by
  cases hv : p.data_ with
  | none => rw [destroySelf_zero (Wf_spec_none hw hv), hv]
  | some v => rw [destroySelf_holding hw hv]

theorem copyCtor_holding {n : Nat} {abs : Fin (n + 1) → Bool}
    {p : Poly n} {v : Value n} (hw : p.Wf abs = true)
    (hv : p.data_ = some v) :
    p.copyCtor abs
      = (⟨some v, p.id_⟩, [Event.setTag p.id_, Event.ctor v]) := by
  have habs := (Wf_spec_holding hw hv).2
  simp [Poly.copyCtor, visitTarget_holding hw hv, habs]

theorem copyCtor_zero {n : Nat} {abs : Fin (n + 1) → Bool}
    {p : Poly n} (h : p.id_ = 0) :
    p.copyCtor abs = (⟨none, p.id_⟩, [Event.setTag p.id_]) := by
  simp [Poly.copyCtor, visitTarget_zero h]

theorem moveCtor_holding {n : Nat} {abs : Fin (n + 1) → Bool}
    {p : Poly n} {v : Value n} (hw : p.Wf abs = true)
    (hv : p.data_ = some v) :
    p.moveCtor abs = ((⟨some v, p.id_⟩, ⟨none, 0⟩),
      [Event.setTag p.id_, Event.ctor v, Event.dtor v, Event.setTag 0]) := by
  have habs := (Wf_spec_holding hw hv).2
  simp [Poly.moveCtor, visitTarget_holding hw hv, habs,
    destroySelf_holding hw hv]

theorem moveCtor_zero {n : Nat} {abs : Fin (n + 1) → Bool}
    {p : Poly n} (h : p.id_ = 0) (hd : p.data_ = none) :
    p.moveCtor abs = ((⟨none, p.id_⟩, ⟨none, 0⟩),
      [Event.setTag p.id_, Event.setTag 0]) := by
  simp [Poly.moveCtor, visitTarget_zero h, destroySelf_zero h, hd]

theorem valueAssign_holding {n : Nat} {abs : Fin (n + 1) → Bool}
    {p : Poly n} {v : Value n} (hw : p.Wf abs = true)
    (hv : p.data_ = some v) (u : Value n) :
    p.valueAssign u = (⟨some u, tagOf u.ty⟩,
      [Event.dtor v, Event.setTag 0,
       Event.setTag (tagOf u.ty), Event.ctor u]) := by
  simp [Poly.valueAssign, destroySelf_holding hw hv]

theorem valueAssign_zero {n : Nat} {p : Poly n} (h : p.id_ = 0)
    (u : Value n) :
    p.valueAssign u = (⟨some u, tagOf u.ty⟩,
      [Event.setTag 0, Event.setTag (tagOf u.ty), Event.ctor u]) := by
  simp [Poly.valueAssign, destroySelf_zero h]

theorem copyAssign_holding {n : Nat} {abs : Fin (n + 1) → Bool}
    {dst src : Poly n} {v : Value n} (hws : src.Wf abs = true)
    (hv : src.data_ = some v) :
    Poly.copyAssign dst src = (⟨some v, src.id_⟩,
      (dst.destroySelf).2 ++ [Event.setTag src.id_, Event.ctor v]) := by
  simp [Poly.copyAssign, visitTarget_holding hws hv]

theorem copyAssign_zero {n : Nat} {abs : Fin (n + 1) → Bool}
    {dst src : Poly n} (hwd : dst.Wf abs = true) (h : src.id_ = 0) :
    Poly.copyAssign dst src = (⟨none, src.id_⟩,
      (dst.destroySelf).2 ++ [Event.setTag src.id_]) := by
  simp [Poly.copyAssign, visitTarget_zero h, destroySelf_wf_fst hwd]

theorem moveAssign_holding {n : Nat} {abs : Fin (n + 1) → Bool}
    {dst src : Poly n} {v : Value n} (hws : src.Wf abs = true)
    (hv : src.data_ = some v) :
    Poly.moveAssign dst src = ((⟨some v, src.id_⟩, ⟨none, 0⟩),
      (dst.destroySelf).2 ++ [Event.setTag src.id_, Event.ctor v]
        ++ [Event.dtor v, Event.setTag 0]) := by
  simp [Poly.moveAssign, visitTarget_holding hws hv,
    destroySelf_holding hws hv]

theorem moveAssign_zero {n : Nat} {abs : Fin (n + 1) → Bool}
    {dst src : Poly n} (hwd : dst.Wf abs = true) (h : src.id_ = 0)
    (hd : src.data_ = none) :
    Poly.moveAssign dst src = ((⟨none, src.id_⟩, ⟨none, 0⟩),
      (dst.destroySelf).2 ++ [Event.setTag src.id_] ++ [Event.setTag 0]) := by
  simp [Poly.moveAssign, visitTarget_zero h, destroySelf_zero h, hd,
    destroySelf_wf_fst hwd]

theorem destroySelf_empty_state {n : Nat} :
    (⟨none, 0⟩ : Poly n).destroySelf = (⟨none, 0⟩, [Event.setTag 0]) := rfl

theorem selfCopyAssign_wf {n : Nat} {abs : Fin (n + 1) → Bool}
    {x : Poly n} (hw : x.Wf abs = true) :
    x.selfCopyAssign = (⟨none, 0⟩, (x.destroySelf).2 ++ [Event.setTag 0]) := by
  simp [Poly.selfCopyAssign, destroySelf_wf_fst hw, visitTarget_empty_state]

theorem selfMoveAssign_wf {n : Nat} {abs : Fin (n + 1) → Bool}
    {x : Poly n} (hw : x.Wf abs = true) :
    x.selfMoveAssign = (⟨none, 0⟩,
      (x.destroySelf).2 ++ [Event.setTag 0] ++ [Event.setTag 0]) := by
  simp [Poly.selfMoveAssign, destroySelf_wf_fst hw, visitTarget_empty_state,
    destroySelf_empty_state]

end efl

/-! ### The registry is bidirectional, with 1-based tags in list order -/

namespace efl

theorem GetID_spec {α : Type} [DecidableEq α] :
    ∀ (TT : List α) (u : α) (i : Nat), GetID TT u = some i →
      GetTy TT (i - 1) = some u ∧ 1 ≤ i ∧ i ≤ TT.length := by
  intro TT
  induction TT with
  | nil => intro u i h; cases h
  | cons t rest ih =>
    intro u i h
    unfold GetID at h
    by_cases hu : u = t
    · rw [if_pos hu] at h
      obtain rfl : (1 : Nat) = i := by injection h
      subst hu
      exact ⟨rfl, Nat.le_refl 1, Nat.succ_le_succ (Nat.zero_le _)⟩
    · rw [if_neg hu] at h
      rcases Option.map_eq_some'.mp h with ⟨j, hj, hji⟩
      obtain ⟨h1, h2, h3⟩ := ih u j hj
      subst hji
      obtain ⟨k, rfl⟩ : ∃ k, j = k + 1 :=
        ⟨j - 1, (Nat.succ_pred_eq_of_pos h2).symm⟩
      refine ⟨?_, Nat.succ_le_succ (Nat.zero_le _), Nat.succ_le_succ h3⟩
      simpa [GetTy] using h1

theorem GetTy_GetID {α : Type} [DecidableEq α] :
    ∀ (TT : List α), TT.Nodup → ∀ (I : Nat) (u : α),
      GetTy TT I = some u → GetID TT u = some (I + 1) := by
  intro TT
  induction TT with
  | nil => intro _ I u h; cases h
  | cons t rest ih =>
    intro hnd I u h
    obtain ⟨htr, hndr⟩ := List.nodup_cons.mp hnd
    cases I with
    | zero =>
      obtain rfl : t = u := by injection h
      simp [GetID]
    | succ k =>
      have hk : GetTy rest k = some u := h
      have hmem : u ∈ rest := List.get?_mem hk
      have hut : ¬(u = t) := fun he => htr (he ▸ hmem)
      rw [GetID, if_neg hut, ih hndr k u hk]
      rfl

theorem GetTy_tyList {n : Nat} (t : Fin (n + 1)) :
    GetTy (tyList n) t.val = some t := by
  unfold GetTy tyList
  have h : t.val < (List.finRange (n + 1)).length := by
    rw [List.length_finRange]; exact t.isLt
  rw [List.get?_eq_get h, List.get_finRange]

theorem GetID_tyList {n : Nat} (t : Fin (n + 1)) :
    GetID (tyList n) t = some (tagOf t) :=
  GetTy_GetID (tyList n) (List.nodup_finRange (n + 1)) t.val t (GetTy_tyList t)

/-! ### Swap, assembled from the move operations -/

theorem swapPoly_holding {n : Nat} {abs : Fin (n + 1) → Bool}
    {a b : Poly n} {va vb : Value n}
    (hwa : a.Wf abs = true) (hva : a.data_ = some va)
    (hwb : b.Wf abs = true) (hvb : b.data_ = some vb) :
    (swapPoly abs a b).1 = (⟨some vb, tagOf vb.ty⟩, ⟨some va, tagOf va.ty⟩) := by
  obtain ⟨hida, habsa⟩ := Wf_spec_holding hwa hva
  obtain ⟨hidb, habsb⟩ := Wf_spec_holding hwb hvb
  have hwa2 : (⟨some va, a.id_⟩ : Poly n).Wf abs = true := by
    rw [hida]; exact Wf_holding_state habsa
  simp only [swapPoly, moveCtor_holding hwa hva,
    moveAssign_holding hwb hvb, moveAssign_holding hwa2 rfl]
  rw [hida, hidb]

theorem selfSwapPoly_wf {n : Nat} {abs : Fin (n + 1) → Bool}
    {x : Poly n} (hw : x.Wf abs = true) :
    (selfSwapPoly abs x).1 = x := by
  have hwe : (⟨none, 0⟩ : Poly n).Wf abs = true := Wf_empty_state abs
  cases hv : x.data_ with
  | some v =>
    obtain ⟨hid, habs⟩ := Wf_spec_holding hw hv
    have hwx2 : (⟨some v, x.id_⟩ : Poly n).Wf abs = true := by
      rw [hid]; exact Wf_holding_state habs
    simp only [selfSwapPoly, moveCtor_holding hw hv,
      selfMoveAssign_wf hwe, moveAssign_holding hwx2 rfl]
    rw [← hv]
  | none =>
    have hid := Wf_spec_none hw hv
    have hx : x = ⟨none, 0⟩ := by
      cases x
      simp_all
    rw [hx]
    rfl

end efl

/-! ### Every operation preserves the invariant -/

namespace efl

theorem Wf_destroySelf {n : Nat} {abs : Fin (n + 1) → Bool} {p : Poly n}
    (hw : p.Wf abs = true) : (p.destroySelf).1.Wf abs = true := by
  rw [destroySelf_wf_fst hw]; exact Wf_empty_state abs

theorem Wf_copyCtor {n : Nat} {abs : Fin (n + 1) → Bool} {p : Poly n}
    (hw : p.Wf abs = true) : (p.copyCtor abs).1.Wf abs = true := by
  cases hv : p.data_ with
  | none =>
    have h0 := Wf_spec_none hw hv
    rw [copyCtor_zero h0]
    simp [Poly.Wf, h0]
  | some v =>
    obtain ⟨hid, habs⟩ := Wf_spec_holding hw hv
    rw [copyCtor_holding hw hv]
    simp [Poly.Wf, hid, habs]

theorem Wf_moveCtor_fst {n : Nat} {abs : Fin (n + 1) → Bool} {p : Poly n}
    (hw : p.Wf abs = true) : (p.moveCtor abs).1.1.Wf abs = true := by
  cases hv : p.data_ with
  | none =>
    have h0 := Wf_spec_none hw hv
    rw [moveCtor_zero h0 hv]
    simp [Poly.Wf, h0]
  | some v =>
    obtain ⟨hid, habs⟩ := Wf_spec_holding hw hv
    rw [moveCtor_holding hw hv]
    simp [Poly.Wf, hid, habs]

theorem Wf_moveCtor_snd {n : Nat} {abs : Fin (n + 1) → Bool} {p : Poly n}
    (hw : p.Wf abs = true) : (p.moveCtor abs).1.2.Wf abs = true := by
  cases hv : p.data_ with
  | none =>
    rw [moveCtor_zero (Wf_spec_none hw hv) hv]
    exact Wf_empty_state abs
  | some v =>
    rw [moveCtor_holding hw hv]
    exact Wf_empty_state abs

theorem Wf_valueCtor {n : Nat} {abs : Fin (n + 1) → Bool} {u : Value n}
    (hu : abs u.ty = false) : (Poly.valueCtor u).1.Wf abs = true :=
  Wf_holding_state hu

theorem Wf_valueAssign {n : Nat} {abs : Fin (n + 1) → Bool} (p : Poly n)
    {u : Value n} (hu : abs u.ty = false) :
    (p.valueAssign u).1.Wf abs = true :=
  Wf_holding_state hu

theorem Wf_copyAssign {n : Nat} {abs : Fin (n + 1) → Bool}
    {dst src : Poly n} (hwd : dst.Wf abs = true) (hws : src.Wf abs = true) :
    (Poly.copyAssign dst src).1.Wf abs = true := by
  cases hv : src.data_ with
  | none =>
    have h0 := Wf_spec_none hws hv
    rw [copyAssign_zero hwd h0]
    simp [Poly.Wf, h0]
  | some v =>
    obtain ⟨hid, habs⟩ := Wf_spec_holding hws hv
    rw [copyAssign_holding hws hv]
    simp [Poly.Wf, hid, habs]

theorem Wf_moveAssign_fst {n : Nat} {abs : Fin (n + 1) → Bool}
    {dst src : Poly n} (hwd : dst.Wf abs = true) (hws : src.Wf abs = true) :
    (Poly.moveAssign dst src).1.1.Wf abs = true := by
  cases hv : src.data_ with
  | none =>
    have h0 := Wf_spec_none hws hv
    rw [moveAssign_zero hwd h0 hv]
    simp [Poly.Wf, h0]
  | some v =>
    obtain ⟨hid, habs⟩ := Wf_spec_holding hws hv
    rw [moveAssign_holding hws hv]
    simp [Poly.Wf, hid, habs]

theorem Wf_moveAssign_snd {n : Nat} {abs : Fin (n + 1) → Bool}
    {dst src : Poly n} (hwd : dst.Wf abs = true) (hws : src.Wf abs = true) :
    (Poly.moveAssign dst src).1.2.Wf abs = true := by
  cases hv : src.data_ with
  | none =>
    rw [moveAssign_zero hwd (Wf_spec_none hws hv) hv]
    exact Wf_empty_state abs
  | some v =>
    rw [moveAssign_holding hws hv]
    exact Wf_empty_state abs

theorem Wf_selfCopyAssign {n : Nat} {abs : Fin (n + 1) → Bool} {x : Poly n}
    (hw : x.Wf abs = true) : (x.selfCopyAssign).1.Wf abs = true := by
  rw [selfCopyAssign_wf hw]
  exact Wf_empty_state abs

theorem Wf_selfMoveAssign {n : Nat} {abs : Fin (n + 1) → Bool} {x : Poly n}
    (hw : x.Wf abs = true) : (x.selfMoveAssign).1.Wf abs = true := by
  rw [selfMoveAssign_wf hw]
  exact Wf_empty_state abs

end efl

/-! ### The claims -/

namespace efl

/-- C1: a container-to-container move (move construction or move
assignment) whose source holds a value `v` leaves the destination with
`holdsType` of `v`'s exact type, destroys the source's payload (a `dtor`
event on `v` appears in the trace) and resets the source's tag to 0, so
the source is empty afterwards (not merely valid-but-unspecified); a
move from an empty source leaves the destination empty. -/
theorem C1_move_empties_source {n : Nat} (abs : Fin (n + 1) → Bool)
    (p q dst dst2 : Poly n) (v : Value n)
    (hw : p.Wf abs = true) (hv : p.data_ = some v)
    (hq : q.id_ = 0) (hqd : q.data_ = none)
    (hwd2 : dst2.Wf abs = true) :
    ((p.moveCtor abs).1.1.holdsType v.ty = true
      ∧ (p.moveCtor abs).1.2.isEmpty = true
      ∧ (p.moveCtor abs).1.2.id_ = 0
      ∧ (p.moveCtor abs).1.2.data_ = none
      ∧ Event.dtor v ∈ (p.moveCtor abs).2)
    ∧ ((Poly.moveAssign dst p).1.1.holdsType v.ty = true
      ∧ (Poly.moveAssign dst p).1.2.isEmpty = true
      ∧ (Poly.moveAssign dst p).1.2.id_ = 0
      ∧ (Poly.moveAssign dst p).1.2.data_ = none
      ∧ Event.dtor v ∈ (Poly.moveAssign dst p).2)
    ∧ (q.moveCtor abs).1.1.isEmpty = true
    ∧ (Poly.moveAssign dst2 q).1.1.isEmpty = true := by
  obtain ⟨hid, habs⟩ := Wf_spec_holding hw hv
  refine ⟨?_, ?_, ?_, ?_⟩
  · rw [moveCtor_holding hw hv]
    exact ⟨by simp [Poly.holdsType, hid], rfl, rfl, rfl, by simp⟩
  · rw [moveAssign_holding hw hv]
    exact ⟨by simp [Poly.holdsType, hid], rfl, rfl, rfl, by simp⟩
  · rw [moveCtor_zero hq hqd]
    simp [Poly.isEmpty, hq]
  · rw [moveAssign_zero hwd2 hq hqd]
    simp [Poly.isEmpty, hq]

/-- Witness for C1 at `Poly<Base, D1>`: moving out of a container
holding a `Base` object with bytes 7 empties it and transfers the type. -/
theorem C1_witness :
    (Poly.moveCtor noAbstract polyB).1.1.holdsType 0 = true
      ∧ (Poly.moveCtor noAbstract polyB).1.2.isEmpty = true
      ∧ (Poly.moveAssign polyD polyB).1.1.holdsType 0 = true
      ∧ (Poly.moveAssign polyD polyB).1.2.isEmpty = true
      ∧ (Poly.moveCtor noAbstract polyE).1.1.isEmpty = true := by
  have h := C1_move_empties_source noAbstract polyB polyE polyD polyE
    ⟨0, 7⟩ (by decide) (by decide) (by decide) (by decide) (by decide)
  exact ⟨h.1.1, h.1.2.1, h.2.1.1, h.2.1.2.1, h.2.2.1⟩

/-- C2: `visit` (the mutable and the const overload have identical
dispatch logic) invokes the callback zero times on an empty container
and exactly once on a container holding a value, with the pointer's
static type being exactly the held concrete type. -/
theorem C2_visit_exactly_once {n : Nat} (abs : Fin (n + 1) → Bool)
    (p q : Poly n) (v : Value n) (hp : p.isEmpty = true)
    (hw : q.Wf abs = true) (hv : q.data_ = some v) :
    p.visit = [] ∧ q.visit = [(v.ty, some v)] := by
  constructor
  · have h0 : p.id_ = 0 := by simpa [Poly.isEmpty] using hp
    unfold Poly.visit
    rw [visitTarget_zero h0]
  · unfold Poly.visit
    rw [visitTarget_holding hw hv]

/-- Witness for C2: the empty container's visit performs no invocation;
a container holding a `D1` object invokes the callback once with a
`D1`-typed pointer. -/
theorem C2_witness :
    Poly.visit polyE = [] ∧ Poly.visit polyD = [(1, some ⟨1, 9⟩)] :=
  C2_visit_exactly_once noAbstract polyE polyD ⟨1, 9⟩
    (by decide) (by decide) (by decide)

/-- C3 as stated is false: in `Poly<Base, D1>` the registry assigns the
first derived type `D1` tag 2, not 1 — tag 1 belongs to `Base`, because
the node list is `(Base, D1, ..., Dn)`, not `(D1, ..., Dn)`. -/
theorem C3_counterexample :
    GetID (tyList 1) (1 : Fin 2) = some 2
      ∧ ¬ (GetID (tyList 1) (1 : Fin 2) = some 1)
      ∧ tagOf (1 : Fin 2) = 2 := by decide

/-- C3 amended: the registry maps the full ordered list
`(Base, D1, ..., Dn)`, giving the type at 0-based position `I` the tag
`I + 1` (so `Base` gets 1 and `Di` gets `i + 1`), every assigned tag lies
in `[1, n+1]` (with 0 reserved for empty), the mapping is bidirectional,
and the container's tag constant `ID<T>` agrees with it. -/
theorem C3_registry_amended {α : Type} [DecidableEq α] (TT : List α)
    (hnd : TT.Nodup) (u w : α) (i I : Nat) (m : Nat) (t : Fin (m + 1))
    (hid : GetID TT u = some i) (hty : GetTy TT I = some w) :
    GetTy TT (i - 1) = some u
      ∧ 1 ≤ i ∧ i ≤ TT.length
      ∧ GetID TT w = some (I + 1)
      ∧ GetID (tyList m) t = some (tagOf t) := by
  obtain ⟨h1, h2, h3⟩ := GetID_spec TT u i hid
  exact ⟨h1, h2, h3, GetTy_GetID TT hnd I w hty, GetID_tyList t⟩

/-- Witness for the amended C3 on the list `(Base, D1)` (named 10, 11):
`GetID` of `D1` is 2, inverted by `GetTy`, and the container tag of the
`D1` slot is 2. -/
theorem C3_registry_amended_witness :
    GetTy [10, 11] (2 - 1) = some 11
      ∧ 1 ≤ 2 ∧ 2 ≤ ([10, 11] : List Nat).length
      ∧ GetID [10, 11] 10 = some (0 + 1)
      ∧ GetID (tyList 1) (1 : Fin 2) = some (tagOf (1 : Fin 2)) :=
  C3_registry_amended [10, 11] (by decide) 11 10 2 0 1 (1 : Fin 2)
    (by decide) (by decide)

end efl

namespace efl

/-- C4 as stated is false on the installation order: value assignment
(`operator=(const U&)` / `operator=(U&&)`) writes the new tag *before*
the placement-new of the payload (`id_ = ID<U>; new (data_.raw_) U{u};`),
so in the trace of assigning a `D1` value to an empty container the
nonzero tag write is not preceded by any construction. -/
theorem C4_counterexample :
    ctorPrecedesTagWrite false ((Poly.valueAssign polyE ⟨1, 3⟩).2) = false := by
  decide

/-- C4 amended: every public operation preserves the invariant that the
tag is nonzero iff the storage holds exactly one live object of the type
the tag maps to; removal destroys the payload and then resets the tag to
0, but installation writes the tag first and then constructs the payload
(member-initializer order / `id_ = ...; new (...)`) — the reverse of the
claimed construct-then-set-tag order. -/
theorem C4_invariant_and_order {n : Nat} (abs : Fin (n + 1) → Bool)
    (p e q : Poly n) (u v : Value n)
    (hw : p.Wf abs = true) (hv : p.data_ = some v)
    (he : e.id_ = 0) (hed : e.data_ = none)
    (hq : q.Wf abs = true) (hu : abs u.ty = false) :
    (p.destroySelf).1.Wf abs = true
      ∧ (e.destroySelf).1.Wf abs = true
      ∧ (p.erase).1.Wf abs = true
      ∧ (p.copyCtor abs).1.Wf abs = true
      ∧ (e.copyCtor abs).1.Wf abs = true
      ∧ (p.moveCtor abs).1.1.Wf abs = true
      ∧ (p.moveCtor abs).1.2.Wf abs = true
      ∧ (e.moveCtor abs).1.1.Wf abs = true
      ∧ (e.moveCtor abs).1.2.Wf abs = true
      ∧ (Poly.valueCtor u).1.Wf abs = true
      ∧ (p.valueAssign u).1.Wf abs = true
      ∧ (e.valueAssign u).1.Wf abs = true
      ∧ (Poly.copyAssign p q).1.Wf abs = true
      ∧ (Poly.copyAssign q p).1.Wf abs = true
      ∧ (Poly.moveAssign p q).1.1.Wf abs = true
      ∧ (Poly.moveAssign p q).1.2.Wf abs = true
      ∧ (p.selfCopyAssign).1.Wf abs = true
      ∧ (p.selfMoveAssign).1.Wf abs = true
      ∧ (p.destroySelf).2 = [Event.dtor v, Event.setTag 0]
      ∧ (Poly.valueCtor u).2 = [Event.setTag (tagOf u.ty), Event.ctor u]
      ∧ (p.valueAssign u).2
          = [Event.dtor v, Event.setTag 0,
             Event.setTag (tagOf u.ty), Event.ctor u] := by
  have hwe : e.Wf abs = true := by
    cases e
    simp_all [Poly.Wf]
  refine ⟨Wf_destroySelf hw, Wf_destroySelf hwe, Wf_destroySelf hw,
    Wf_copyCtor hw, Wf_copyCtor hwe,
    Wf_moveCtor_fst hw, Wf_moveCtor_snd hw,
    Wf_moveCtor_fst hwe, Wf_moveCtor_snd hwe,
    Wf_valueCtor hu, Wf_valueAssign p hu, Wf_valueAssign e hu,
    Wf_copyAssign hw hq, Wf_copyAssign hq hw,
    Wf_moveAssign_fst hw hq, Wf_moveAssign_snd hw hq,
    Wf_selfCopyAssign hw, Wf_selfMoveAssign hw,
    ?_, rfl, ?_⟩
  · rw [destroySelf_holding hw hv]
  · rw [valueAssign_holding hw hv u]

/-- Witness for the amended C4 at `Poly<Base, D1>` with concrete
containers holding `Base` (tag 1) and `D1` (tag 2). -/
theorem C4_invariant_and_order_witness :
    (Poly.destroySelf polyB).1.Wf noAbstract = true
      ∧ (Poly.valueAssign polyB ⟨1, 3⟩).1.Wf noAbstract = true
      ∧ (Poly.destroySelf polyB).2
          = [Event.dtor ⟨0, 7⟩, Event.setTag 0]
      ∧ (Poly.valueAssign polyB ⟨1, 3⟩).2
          = [Event.dtor ⟨0, 7⟩, Event.setTag 0,
             Event.setTag (tagOf (1 : Fin 2)), Event.ctor ⟨1, 3⟩] := by
  have h := C4_invariant_and_order noAbstract polyB polyE polyD
    ⟨1, 3⟩ ⟨0, 7⟩ (by decide) (by decide) (by decide) (by decide)
    (by decide) (by decide)
  exact ⟨h.1, h.2.2.2.2.2.2.2.2.2.2.1, h.2.2.2.2.2.2.2.2.2.2.2.2.2.2.2.2.2.2.1,
    h.2.2.2.2.2.2.2.2.2.2.2.2.2.2.2.2.2.2.2.2⟩

end efl

namespace efl

/-- C5 as stated is false in the aliasing case: self-copy-assignment of
a container holding a `Base` value first destroys the receiver's payload,
so afterwards `holdsType` no longer matches and the container is empty —
the source (which is the destination) is not left unchanged. -/
theorem C5_counterexample :
    Poly.Wf noAbstract polyB = true
      ∧ Poly.holdsType polyB 0 = true
      ∧ (Poly.selfCopyAssign polyB).1.holdsType 0 = false
      ∧ (Poly.selfCopyAssign polyB).1.isEmpty = true := by decide

/-- C5 amended: a copy (construction or assignment) from a non-empty
container `src` into a *distinct* destination yields a container holding
`src`'s exact type with an equal value, and `src` is unchanged (it is
taken by `const&`; copy construction performs no destruction at all, as
its trace shows); but when copy-assignment source and destination alias,
the container ends empty instead. -/
theorem C5_copy_matches_source {n : Nat} (abs : Fin (n + 1) → Bool)
    (src dst : Poly n) (v : Value n)
    (hws : src.Wf abs = true) (hv : src.data_ = some v) :
    (src.copyCtor abs).1.holdsType v.ty = true
      ∧ (src.copyCtor abs).1.data_ = some v
      ∧ (src.copyCtor abs).2 = [Event.setTag src.id_, Event.ctor v]
      ∧ (Poly.copyAssign dst src).1.holdsType v.ty = true
      ∧ (Poly.copyAssign dst src).1.data_ = some v
      ∧ (src.selfCopyAssign).1.isEmpty = true := by
  obtain ⟨hid, habs⟩ := Wf_spec_holding hws hv
  rw [copyCtor_holding hws hv, copyAssign_holding hws hv,
    selfCopyAssign_wf hws]
  exact ⟨by simp [Poly.holdsType, hid], rfl, rfl,
    by simp [Poly.holdsType, hid], rfl, rfl⟩

/-- Witness for the amended C5: copying a container holding a `D1`
object into a container holding a `Base` object. -/
theorem C5_copy_matches_source_witness :
    (Poly.copyCtor noAbstract polyD).1.holdsType 1 = true
      ∧ (Poly.copyCtor noAbstract polyD).1.data_ = some ⟨1, 9⟩
      ∧ (Poly.copyAssign polyB polyD).1.holdsType 1 = true
      ∧ (Poly.copyAssign polyB polyD).1.data_ = some ⟨1, 9⟩ := by
  have h := C5_copy_matches_source noAbstract polyD polyB ⟨1, 9⟩
    (by decide) (by decide)
  exact ⟨h.1, h.2.1, h.2.2.2.1, h.2.2.2.2.1⟩

/-- C6: value-assigning a value `b` to a container holding `a` destroys
the `a`-instance strictly before constructing the `b`-instance (the trace
is destructor, tag reset, tag write, construction — even when the types
coincide a fresh object is constructed, never reusing the old one);
afterwards `holdsType` of `b`'s type is true and, when the types differ,
`holdsType` of `a`'s type is false. -/
theorem C6_reassign_destroys_before_construct {n : Nat}
    (abs : Fin (n + 1) → Bool) (p q : Poly n) (a b c d : Value n)
    (hwp : p.Wf abs = true) (ha : p.data_ = some a) (hab : a.ty ≠ b.ty)
    (hwq : q.Wf abs = true) (hc : q.data_ = some c) :
    (p.valueAssign b).2
        = [Event.dtor a, Event.setTag 0,
           Event.setTag (tagOf b.ty), Event.ctor b]
      ∧ (p.valueAssign b).1.holdsType b.ty = true
      ∧ (p.valueAssign b).1.holdsType a.ty = false
      ∧ (q.valueAssign d).2
          = [Event.dtor c, Event.setTag 0,
             Event.setTag (tagOf d.ty), Event.ctor d]
      ∧ (q.valueAssign d).1.holdsType d.ty = true := by
  rw [valueAssign_holding hwp ha b, valueAssign_holding hwq hc d]
  refine ⟨rfl, by simp [Poly.holdsType], ?_, rfl, by simp [Poly.holdsType]⟩
  simp only [Poly.holdsType]
  simp only [beq_eq_false_iff_ne, ne_eq]
  exact fun h => hab (tagOf_inj h).symm

/-- Witness for C6: reassigning a `Base`-holding container to a `D1`
value, and a `D1`-holding container to another `D1` value (same type:
the old instance is still destroyed and a new one constructed). -/
theorem C6_witness :
    (Poly.valueAssign polyB ⟨1, 3⟩).2
        = [Event.dtor ⟨0, 7⟩, Event.setTag 0,
           Event.setTag (tagOf (1 : Fin 2)), Event.ctor ⟨1, 3⟩]
      ∧ (Poly.valueAssign polyB ⟨1, 3⟩).1.holdsType 1 = true
      ∧ (Poly.valueAssign polyB ⟨1, 3⟩).1.holdsType 0 = false
      ∧ (Poly.valueAssign polyD ⟨1, 4⟩).2
          = [Event.dtor ⟨1, 9⟩, Event.setTag 0,
             Event.setTag (tagOf (1 : Fin 2)), Event.ctor ⟨1, 4⟩] := by
  have h := C6_reassign_destroys_before_construct noAbstract polyB polyD
    ⟨0, 7⟩ ⟨1, 3⟩ ⟨1, 9⟩ ⟨1, 4⟩ (by decide) (by decide) (by decide)
    (by decide) (by decide)
  exact ⟨h.1, h.2.1, h.2.2.1, h.2.2.2.1⟩

/-- C7: the capability-pointer access (`operator->`, both overloads) has
the precondition that the container is non-empty: on an empty container
the `POLY_ASSERT(holdsAny())` check is false (a precondition violation);
on a non-empty well-formed container the assertion passes and `getPtr`
returns a non-null `Base`-typed pointer viewing the held object. -/
theorem C7_arrow_requires_nonempty {n : Nat} (abs : Fin (n + 1) → Bool)
    (p q : Poly n) (v : Value n) (hp : p.isEmpty = true)
    (hw : q.Wf abs = true) (hv : q.data_ = some v) :
    p.arrowAssert = false
      ∧ q.arrowAssert = true
      ∧ q.getPtr = some (some v)
      ∧ q.getPtr ≠ none := by
  have h0 : p.id_ = 0 := by simpa [Poly.isEmpty] using hp
  obtain ⟨hid, _⟩ := Wf_spec_holding hw hv
  have hqz : ¬(q.id_ = 0) := by
    rw [hid]; exact tagOf_ne_zero v.ty
  refine ⟨?_, ?_, ?_, ?_⟩
  · simp [Poly.arrowAssert, Poly.holdsAny, h0]
  · simp [Poly.arrowAssert, Poly.holdsAny, hqz]
  · simp [Poly.getPtr, hqz, hv]
  · simp [Poly.getPtr, hqz]

/-- Witness for C7: the assertion fails on the empty container and the
pointer views the held `Base` object of a non-empty one. -/
theorem C7_witness :
    Poly.arrowAssert polyE = false
      ∧ Poly.arrowAssert polyB = true
      ∧ Poly.getPtr polyB = some (some ⟨0, 7⟩)
      ∧ Poly.getPtr polyB ≠ none :=
  C7_arrow_requires_nonempty noAbstract polyE polyB ⟨0, 7⟩
    (by decide) (by decide) (by decide)

end efl

namespace efl

/-- C8: `std::swap` (one move construction plus two move assignments)
on two non-empty containers exchanges their held types and values, and
self-swap is a no-op: the container is observably identical afterwards. -/
theorem C8_swap_exchanges {n : Nat} (abs : Fin (n + 1) → Bool)
    (a b x : Poly n) (va vb : Value n)
    (hwa : a.Wf abs = true) (hva : a.data_ = some va)
    (hwb : b.Wf abs = true) (hvb : b.data_ = some vb)
    (hwx : x.Wf abs = true) :
    (swapPoly abs a b).1.1 = ⟨some vb, tagOf vb.ty⟩
      ∧ (swapPoly abs a b).1.2 = ⟨some va, tagOf va.ty⟩
      ∧ (swapPoly abs a b).1.1.holdsType vb.ty = true
      ∧ (swapPoly abs a b).1.2.holdsType va.ty = true
      ∧ (selfSwapPoly abs x).1 = x := by
  have hsw := swapPoly_holding hwa hva hwb hvb
  have h1 : (swapPoly abs a b).1.1 = ⟨some vb, tagOf vb.ty⟩ := by
    rw [hsw]
  have h2 : (swapPoly abs a b).1.2 = ⟨some va, tagOf va.ty⟩ := by
    rw [hsw]
  refine ⟨h1, h2, ?_, ?_, selfSwapPoly_wf hwx⟩
  · rw [h1]; simp [Poly.holdsType]
  · rw [h2]; simp [Poly.holdsType]

/-- Witness for C8: swapping a `Base`-holding and a `D1`-holding
container exchanges them; self-swapping the `Base`-holding container
leaves it unchanged. -/
theorem C8_witness :
    (swapPoly noAbstract polyB polyD).1.1 = ⟨some ⟨1, 9⟩, tagOf (1 : Fin 2)⟩
      ∧ (swapPoly noAbstract polyB polyD).1.2
          = ⟨some ⟨0, 7⟩, tagOf (0 : Fin 2)⟩
      ∧ (selfSwapPoly noAbstract polyB).1 = polyB := by
  have h := C8_swap_exchanges noAbstract polyB polyD polyB ⟨0, 7⟩ ⟨1, 9⟩
    (by decide) (by decide) (by decide) (by decide) (by decide)
  exact ⟨h.1, h.2.1, h.2.2.2.2⟩

/-- C9: self-copy-assignment and self-move-assignment of a container
holding a value leave it empty and destroy the previously held value:
the receiver's payload is destroyed and its tag zeroed before the
aliasing source is read, so the remaining statements copy an already
empty container. -/
theorem C9_self_assignment_empties {n : Nat} (abs : Fin (n + 1) → Bool)
    (x : Poly n) (v : Value n)
    (hw : x.Wf abs = true) (hv : x.data_ = some v) :
    (x.selfCopyAssign).1.isEmpty = true
      ∧ (x.selfCopyAssign).1.data_ = none
      ∧ (x.selfCopyAssign).2
          = [Event.dtor v, Event.setTag 0, Event.setTag 0]
      ∧ (x.selfMoveAssign).1.isEmpty = true
      ∧ (x.selfMoveAssign).1.data_ = none
      ∧ (x.selfMoveAssign).2
          = [Event.dtor v, Event.setTag 0, Event.setTag 0, Event.setTag 0] := by
  rw [selfCopyAssign_wf hw, selfMoveAssign_wf hw, destroySelf_holding hw hv]
  exact ⟨rfl, rfl, rfl, rfl, rfl, rfl⟩

/-- Witness for C9: self-assigning the `Base`-holding container empties
it and destroys the held object. -/
theorem C9_witness :
    (Poly.selfCopyAssign polyB).1.isEmpty = true
      ∧ (Poly.selfCopyAssign polyB).2
          = [Event.dtor ⟨0, 7⟩, Event.setTag 0, Event.setTag 0]
      ∧ (Poly.selfMoveAssign polyB).1.isEmpty = true := by
  have h := C9_self_assignment_empties noAbstract polyB ⟨0, 7⟩
    (by decide) (by decide)
  exact ⟨h.1, h.2.2.1, h.2.2.2.1⟩

/-- C10: the value-construction/assignment candidate set is
`{Base, D1, ..., Dn}` (`matches_any<U, Base, Derived...>`); when `Base`
is concrete the `static_assert(!is_abstract_v<U>)` accepts it, a `Base`
value is stored like any variant with `holdsType<Base>()` true and
`Base` occupying the first tag slot (`ID<Base> = 1`); when `Base` is
abstract the same construction is rejected at compile time. -/
theorem C10_concrete_base_selectable {α : Type} [DecidableEq α]
    {n : Nat} (B : α) (DD : List α) (abs1 abs2 : Fin (n + 1) → Bool)
    (u : Value n) (p : Poly n) (hu : u.ty = (0 : Fin (n + 1)))
    (h1 : abs1 u.ty = false) (h2 : abs2 u.ty = true) :
    matches_any B (B :: DD) = true
      ∧ ctorAccepted abs1 u.ty = true
      ∧ (Poly.valueCtor u).1.holdsType u.ty = true
      ∧ (Poly.valueCtor u).1.data_ = some u
      ∧ (p.valueAssign u).1.holdsType u.ty = true
      ∧ (p.valueAssign u).1.data_ = some u
      ∧ tagOf u.ty = 1
      ∧ ctorAccepted abs2 u.ty = false := by
  refine ⟨?_, ?_, ?_, rfl, ?_, rfl, ?_, ?_⟩
  · simp [matches_any, List.contains_cons]
  · simp [ctorAccepted, h1]
  · simp [Poly.valueCtor, Poly.holdsType]
  · simp [Poly.valueAssign, Poly.holdsType]
  · rw [hu]; rfl
  · simp [ctorAccepted, h2]

/-- Witness for C10 at `Poly<Base, D1>` (named 10, 11): with a concrete
`Base`, a `Base` value with bytes 5 is accepted and stored at tag 1;
with an abstract `Base` it is rejected. -/
theorem C10_witness :
    matches_any 10 [10, 11] = true
      ∧ ctorAccepted noAbstract (0 : Fin 2) = true
      ∧ (Poly.valueCtor (⟨0, 5⟩ : Value 1)).1.holdsType 0 = true
      ∧ (Poly.valueAssign polyD ⟨0, 5⟩).1.holdsType 0 = true
      ∧ tagOf (0 : Fin 2) = 1
      ∧ ctorAccepted abstractBase (0 : Fin 2) = false := by
  have h := C10_concrete_base_selectable 10 [11] noAbstract abstractBase
    (⟨0, 5⟩ : Value 1) polyD (by decide) (by decide) (by decide)
  exact ⟨h.1, h.2.1, h.2.2.1, h.2.2.2.2.1, h.2.2.2.2.2.2.1, h.2.2.2.2.2.2.2⟩

end efl
